import Mathlib

/-!
Verification of the Megamicros MEMs-array acquisition core
(`megamicros/core/base.py`, `h5.py`, `ws.py`, `db.py`).

The Python code is shallowly embedded: every definition below mirrors one
function or code fragment of the source, with mutable object state made
explicit.  Machine integers are modelled as `Nat`/`Int` (no overflow is
relevant to the verified properties), fallible code returns `Except` or
`Option`, and frames are lists of sample columns.
-/

/-! ## Bounded signal queue (`MemsArray.Queue`, base.py lines 142-161) -/

/-- State of a `MemsArray.Queue`: the frames currently held, oldest first,
together with the private lost-frame counter `__transfert_lost`. -/
structure SigQueue (α : Type) where
  items : List α
  lost : Nat
deriving Repr, DecidableEq

/-- Python `MemsArray.Queue.put`: if `maxsize > 0` and the current size `qsize()` has
reached `maxsize`, the oldest element is first removed by `self.get()` and the
lost counter is incremented; then the new element is appended at the back by
`super().put(data)`. -/
def queuePut {α : Type} (maxsize : Nat) (s : SigQueue α) (d : α) : SigQueue α :=
  if 0 < maxsize ∧ maxsize ≤ s.items.length then
    { items := s.items.tail ++ [d], lost := s.lost + 1 }
  else
    { items := s.items ++ [d], lost := s.lost }

/-- A whole producer run: push the frames of `xs` one by one into an initially
empty queue of capacity `maxsize`. -/
def queuePutAll {α : Type} (maxsize : Nat) (xs : List α) : SigQueue α :=
  xs.foldl (queuePut maxsize) ⟨[], 0⟩

/-! ## H5 compression switch (`MemsArray.setH5Compressing`, base.py 590-606) -/

/-- The H5 compression part of a `MemsArray` object state: the fields
`__h5_compressing`, `__h5_compression_algo` and `__h5_gzip_level`. -/
structure H5CompressionState where
  h5_compressing : Bool
  h5_compression_algo : String
  h5_gzip_level : Int
deriving Repr, DecidableEq

/-- The guard `str != 'gzip'` opening `MemsArray.setH5Compressing`.  Its left
operand is the Python builtin type object `str`, not the `algo` argument, so
the comparison evaluates to `True` on every call, whatever the arguments. -/
def str_ne_gzip : Bool := true

/-- Python `MemsArray.setH5Compressing(algo, level)`: returns the raised error
message, or the updated compression state.  The two guards precede every
mutation of `self`, so an error leaves the object untouched. -/
def setH5Compressing (algo : String) (level : Int) :
    Except String H5CompressionState :=
  if str_ne_gzip then
    Except.error "The H5 compressing algo is not implemented"
  else if algo = "gzip" ∧ (level < 0 ∨ 9 < level) then
    Except.error "Wrong compressing level. Accepted values are between 0 and 9"
  else
    Except.ok { h5_compressing := true
                h5_compression_algo := algo
                h5_gzip_level := level }

/-- Observable effect of calling `setH5Compressing` on an object in state `s`:
the state after the call paired with the raised message, if any.  Both guards
run before any assignment, so on error the state is returned unchanged. -/
def setH5CompressingEffect (algo : String) (level : Int)
    (s : H5CompressionState) : H5CompressionState × Option String :=
  match setH5Compressing algo level with
  | Except.error msg => (s, some msg)
  | Except.ok s' => (s', none)

/-! ## Session channel model (base.py `channels_number`, 302-310) -/

/-- Channel-related session configuration of a `MemsArray` used by the H5
writer: active channel counts, counter and status flags, sampling frequency
(Hz) and the H5 dataset duration (seconds). -/
structure SessionCfg where
  mems_number : Nat
  analogs_number : Nat
  counter : Bool
  counter_skip : Bool
  status : Bool
  sampling_frequency : Nat
  h5_dataset_duration : Nat
deriving Repr, DecidableEq

/-- Python property `MemsArray.channels_number`: active MEMs plus active
analogs plus the counter channel (if present and not skipped) plus the status
channel (if present). -/
def channels_number (c : SessionCfg) : Nat :=
  c.mems_number + c.analogs_number
    + (if c.counter ∧ ¬ c.counter_skip then 1 else 0)
    + (if c.status then 1 else 0)

/-- Root attributes written by `MemsArray.__h5_init_file` (base.py 1259-1305)
that the round-trip claim is about. -/
structure H5RootAttrs where
  dataset_length : Nat
  channels_number : Int
  sampling_frequency : Nat
deriving Repr, DecidableEq

/-- Attribute values that `__h5_init_file` stores in the root group `muh5`:
`dataset_length` is `__h5_dataset_length = int(dataset_duration *
sampling_frequency)` (set by `__h5_init`), `channels_number` is
`self.channels_number - int(self.counter and self.counter_skip)` and
`sampling_frequency` is the session sampling frequency. -/
def h5_init_file_attrs (c : SessionCfg) : H5RootAttrs :=
  { dataset_length := c.h5_dataset_duration * c.sampling_frequency
    channels_number :=
      (channels_number c : Int) - (if c.counter ∧ c.counter_skip then 1 else 0)
    sampling_frequency := c.sampling_frequency }

/-! ## Container writer (`MemsArray.__h5_write_mems`, base.py 1308-1364)

A frame or a dataset is modelled as the list of its sample columns: one
element per time instant, each element standing for the vector of the
`channels_number` samples of that instant (the writer copies whole column
ranges, so the column type can stay abstract).  The accumulation buffer is
modelled by its filled prefix, whose length is `__h5_buffer_index`. -/

/-- Writer geometry fixed at `h5_start` time by `MemsArray.__h5_init`:
`frame_length` samples per incoming frame, `__h5_dataset_length` samples per
dataset and `__h5_dataset_number` datasets per file. -/
structure H5WriterCfg where
  frame_length : Nat
  h5_dataset_length : Nat
  h5_dataset_number : Nat
deriving Repr, DecidableEq

/-- Mutable recording state: filled prefix of `__h5_buffer`,
`__h5_dataset_index` within the current file, datasets already written to the
current file, and the closed (rotated-out) files. -/
structure H5WriterState (α : Type) where
  h5_buffer : List α
  h5_dataset_index : Nat
  current_file : List (List α)
  closed_files : List (List (List α))
deriving Repr, DecidableEq

/-- Recording state right after `h5_start`: empty buffer, fresh empty file. -/
def h5WriterInit {α : Type} : H5WriterState α :=
  { h5_buffer := [], h5_dataset_index := 0, current_file := [], closed_files := [] }

/-- Python `MemsArray.__h5_write_mems(signal)`.  If the frame still fits
strictly inside the buffer (`__h5_buffer_index + frame_length <
__h5_dataset_length`) it is appended.  Otherwise the fitting prefix
(`transf_samples_number` columns) completes the buffer; if
`__h5_dataset_index` has reached `__h5_dataset_number` the current file is
closed and a new one opened (`__h5_close`; `__h5_init_file`, which resets
`__h5_dataset_index` to 0); the full buffer is written as the next dataset;
and the remainder `signal[:, transf:frame_length]` restarts the buffer. -/
def h5_write_mems {α : Type} (cfg : H5WriterCfg) (s : H5WriterState α)
    (signal : List α) : H5WriterState α :=
  if s.h5_buffer.length + cfg.frame_length < cfg.h5_dataset_length then
    { s with h5_buffer := s.h5_buffer ++ signal }
  else
    let transf := cfg.h5_dataset_length - s.h5_buffer.length
    let full := s.h5_buffer ++ signal.take transf
    let s' :=
      if cfg.h5_dataset_number ≤ s.h5_dataset_index then
        { s with closed_files := s.closed_files ++ [s.current_file]
                 current_file := []
                 h5_dataset_index := 0 }
      else s
    { h5_buffer := (signal.take cfg.frame_length).drop transf
      h5_dataset_index := s'.h5_dataset_index + 1
      current_file := s'.current_file ++ [full]
      closed_files := s'.closed_files }

/-- Record a whole run: feed every frame to `__h5_write_mems` in order,
starting from a fresh recording. -/
def writeFrames {α : Type} (cfg : H5WriterCfg) (frames : List (List α)) :
    H5WriterState α :=
  frames.foldl (h5_write_mems cfg) h5WriterInit

/-- All datasets flushed so far, in write order (rotated-out files first,
then the current file). -/
def allDatasets {α : Type} (s : H5WriterState α) : List (List α) :=
  s.closed_files.flatten ++ s.current_file

/-! ## Channel activation and masking
(`MemsArray.setActiveMems`, base.py 764-801; `MemsArrayH5.__run_thread`
mask building and row selection, h5.py 518-553) -/

/-- Channel state of the antenna: the list of available MEMs ids and the
list of active MEMs ids, each kept in the order it was given. -/
structure MemsState where
  available_mems : List Nat
  mems : List Nat
deriving Repr, DecidableEq

/-- Python `MemsArray.setActiveMems(mems)`: an empty list deactivates all
MEMs; activating on an antenna with no available MEMs raises, as does
activating a MEM absent from the available list (`False in np.isin(mems,
available_mems)`); otherwise the given list is stored as is, order
included. -/
def setActiveMems (s : MemsState) (mems : List Nat) : Except String MemsState :=
  if mems.length = 0 then
    Except.ok { s with mems := [] }
  else if s.available_mems.length = 0 then
    Except.error "Cannot activate MEMs on antenna with no available MEMs"
  else if mems.any (fun m => ! s.available_mems.contains m) then
    Except.error "Some activated microphones are not available on antenna"
  else
    Except.ok { s with mems := mems }

/-- Mask built by the H5 replay thread (h5.py 522):
`mask = list(np.isin(self.available_mems, self.mems))`, one boolean per
available channel, in the storage order of the available list. -/
def mems_mask (available_mems mems : List Nat) : List Bool :=
  available_mems.map (fun c => mems.contains c)

/-- Numpy boolean-array row selection `dataset[mask, :]` (h5.py 551): keep
the rows whose mask entry is true, in storage order. -/
def maskSelect {β : Type} (rows : List β) (mask : List Bool) : List β :=
  (rows.zip mask).filterMap (fun p => if p.2 then some p.1 else none)

/-! ## Antenna output datatype and the synthetic producer
(`MemsArray.Datatype`, base.py 86-139; `MemsArray._run_process_data_float32`,
base.py 1070-1122; queue put of `MemsArray.__run_thread`, base.py 1026-1031) -/

/-- Python enumeration `MemsArray.Datatype`. -/
inductive Datatype
  | unknown
  | int32
  | float32
  | bint32
  | bfloat32
deriving Repr, DecidableEq

/-- A frame value as it can be held by the local variable `data` of the
`_run_process_data_*` methods: a 2D numpy array of float or of int32, or a
flat binary buffer of either element type (`tobytes` flattens row-major). -/
inductive FrameData
  | float32Arr (rows : List (List Rat))
  | int32Arr (rows : List (List Int))
  | int32Bytes (words : List Int)
  | float32Bytes (words : List Rat)
deriving Repr, DecidableEq

/-- Numpy cast `.astype(np.int32)` of a float value: truncation toward
zero. -/
def astype_int32 (q : Rat) : Int :=
  Int.tdiv q.num (q.den : Int)

/-- Integer-codec conversion `(data / self.sensibility).astype(np.int32)`
applied elementwise to a 2D float array. -/
def intCodec (sensibility : Rat) (rows : List (List Rat)) : List (List Int) :=
  rows.map (fun row => row.map (fun x => astype_int32 (x / sensibility)))

/-- Value held by the local variable `data` of
`MemsArray._run_process_data_float32` when control reaches the end of the
function body: converted to int32 codec units for the two integer datatypes,
then flattened to a binary buffer for the two binary datatypes (the H5
recording branch does not modify the local variable). -/
def run_process_data_float32_local (sensibility : Rat) (dt : Datatype)
    (data : List (List Rat)) : FrameData :=
  let d : FrameData :=
    if dt = Datatype.bint32 ∨ dt = Datatype.int32 then
      FrameData.int32Arr (intCodec sensibility data)
    else
      FrameData.float32Arr data
  match dt, d with
  | Datatype.bint32, FrameData.int32Arr rows => FrameData.int32Bytes rows.flatten
  | Datatype.int32, x => x
  | Datatype.float32, x => x
  | _, FrameData.float32Arr rows => FrameData.float32Bytes rows.flatten
  | _, x => x

/-- Python `MemsArray._run_process_data_float32`: the body computes the
converted buffer in its local variable `data` but contains no `return`
statement, so the caller receives Python `None` on every call, although the
docstring documents the converted buffer as the return value. -/
def run_process_data_float32 (sensibility : Rat) (dt : Datatype)
    (data : List (List Rat)) : Option FrameData :=
  let _data := run_process_data_float32_local sensibility dt data
  none

/-- The item that one iteration of the synthetic `MemsArray.__run_thread`
puts into the signal queue (base.py 1026-1031):
`self.signal_q.put(self._run_process_data_float32(data, ...))`. -/
def syntheticQueueItem (sensibility : Rat) (dt : Datatype)
    (data : List (List Rat)) : Option FrameData :=
  run_process_data_float32 sensibility dt data

/-! ## Database replay (`MemsArrayDB.__run_thread`, db.py 393-470) -/

/-- Channel list requested from the database endpoint: MEMs are shifted by
one when a counter channel leads the stored data, and channel 0 (the
counter) is prepended exactly when the counter is present and not
skipped. -/
def dbChannels (mems : List Nat) (counter counter_skip : Bool) : List Nat :=
  if counter then
    if counter_skip then mems.map (· + 1)
    else 0 :: mems.map (· + 1)
  else mems

/-- Fuel-driven body of `response.iter_content(chunk_size)`: cut `l` into
consecutive pieces of `n` elements, the last piece possibly shorter.  The
fuel is an upper bound on the number of pieces; `chunksOf` passes `l.length`,
which is enough whenever `n ≥ 1`. -/
def chunksOfAux {β : Type} (n : Nat) : Nat → List β → List (List β)
  | 0, _ => []
  | _, [] => []
  | fuel + 1, x :: xs => (x :: xs).take n :: chunksOfAux n fuel ((x :: xs).drop n)

/-- Cut a list into consecutive chunks of `n` elements (`iter_content`). -/
def chunksOf {β : Type} (n : Nat) (l : List β) : List (List β) :=
  chunksOfAux n l.length l

/-- Streaming part of `MemsArrayDB.__run_thread`: with
`chunk_size = frame_length * channels_number * 4` bytes, the content length
is validated by `(content_length % chunk_size) % (channels_number * 4) != 0`
before any chunk is forwarded — on failure `MuDBException` is raised and the
queue receives nothing — and on success the body is read and forwarded in
chunks of `chunk_size` bytes. -/
def dbRun {β : Type} (frame_length : Nat) (channels : List Nat)
    (body : List β) : Except String (List (List β)) :=
  let channels_number := channels.length
  let chunk_size := frame_length * channels_number * 4
  let content_length := body.length
  if content_length % chunk_size % (channels_number * 4) ≠ 0 then
    Except.error "Inconsistency between data received and query"
  else
    Except.ok (chunksOf chunk_size body)

/-! ## Remote-live receive loop (`MemsArrayWS.__remote_run`, ws.py 554-648) -/

/-- A decoded JSON control message from the MBS server: its `type` and
`response` fields plus the optional `request` and `message` fields. -/
structure WsStatusMsg where
  type : String
  response : String
  request : Option String
  message : Option String
deriving Repr, DecidableEq

/-- One message received on the websocket: a raw binary frame or a JSON
control message. -/
inductive WsMsg (β : Type)
  | binary (frame : β)
  | control (msg : WsStatusMsg)
deriving Repr, DecidableEq

/-- Python `MemsArrayWS.__check_mbs_error` (ws.py 245-262): the error
message when the response is an error status (defaulted if absent), nothing
otherwise. -/
def check_mbs_error (m : WsStatusMsg) : Option String :=
  if m.type = "status" ∧ m.response = "error" then
    some (m.message.getD "Unknown error")
  else none

/-- How the receive loop of `__remote_run` leaves its `while True`:
server-completed status, halt acknowledgment, an exception raised inside the
loop (caught and logged by the surrounding handlers), or an exhausted
scripted message list (the socket never delivers again). -/
inductive WsOutcome
  | completed
  | haltAcknowledged
  | raised (msg : String)
  | starved
deriving Repr, DecidableEq

/-- Dispatch of one received control message (ws.py 591-612): an error
status raises; a `completed` status breaks the loop; accessing the `request`
field of any other message that lacks one raises `KeyError`; a halt
acknowledgment (`request='halt'`, response ok) breaks; any other answer
raises. -/
def controlOutcome (c : WsStatusMsg) : WsOutcome :=
  match check_mbs_error c with
  | some e => WsOutcome.raised e
  | none =>
    if c.type = "status" ∧ c.response = "completed" then
      WsOutcome.completed
    else
      match c.request with
      | none => WsOutcome.raised "KeyError"
      | some req =>
        if req = "halt" ∧ c.type = "status" then
          if c.response = "ok" then WsOutcome.haltAcknowledged
          else WsOutcome.raised "Received server error or unknown response from halt request"
        else WsOutcome.raised "Received unexpected message from server"

/-- Result of the receive loop: the frames pushed to the signal queue in
order, the `transfer_lost` counter, the number of halt requests sent, and
how the loop ended. -/
structure WsRunResult (β : Type) where
  queued : List β
  lost : Nat
  halts_sent : Nat
  outcome : WsOutcome
deriving Repr, DecidableEq

/-- Receive loop of `__remote_run` (ws.py 576-637) over the scripted message
sequence.  `running i` is the value of the shared `self.running` flag
observed during iteration `i` (set to false by `stop()` or the deadline
timer).  At the top of each iteration a halt request is sent if the flag has
turned false and none was sent yet (`halt_registered`); then one message is
received: a binary frame is put into the signal queue while the flag is
true, but once the flag is false it is only counted in `transfer_lost`
(ws.py 614-618); a control message ends the loop per `controlOutcome`. -/
def remoteRunAux {β : Type} (running : Nat → Bool) :
    List (WsMsg β) → Nat → Bool → List β → Nat → Nat → WsRunResult β
  | [], _, _, queued, lost, halts =>
    { queued := queued, lost := lost, halts_sent := halts
      outcome := WsOutcome.starved }
  | m :: rest, i, halt_registered, queued, lost, halts =>
    let send := !(running i) && !halt_registered
    let halt_registered' := halt_registered || send
    let halts' := if send then halts + 1 else halts
    match m with
    | WsMsg.binary f =>
      if running i then
        remoteRunAux running rest (i + 1) halt_registered' (queued ++ [f]) lost halts'
      else
        remoteRunAux running rest (i + 1) halt_registered' queued (lost + 1) halts'
    | WsMsg.control c =>
      { queued := queued, lost := lost, halts_sent := halts'
        outcome := controlOutcome c }

/-- A whole `__remote_run` execution: loop from the first message with no
halt sent yet, an empty queue and a zero lost counter. -/
def remote_run {β : Type} (running : Nat → Bool) (msgs : List (WsMsg β)) :
    WsRunResult β :=
  remoteRunAux running msgs 0 false [] 0 0

/-- Characterization helper: the binary frames kept (queued) by the loop,
i.e. those received at an iteration where the running flag was still true. -/
def keptFrames {β : Type} (running : Nat → Bool) : Nat → List β → List β
  | _, [] => []
  | i, f :: fs =>
    if running i then f :: keptFrames running (i + 1) fs
    else keptFrames running (i + 1) fs

/-- Characterization helper: the number of binary frames dropped by the loop
because the running flag had turned false. -/
def lostFramesCount {β : Type} (running : Nat → Bool) : Nat → List β → Nat
  | _, [] => 0
  | i, _ :: fs =>
    if running i then lostFramesCount running (i + 1) fs
    else lostFramesCount running (i + 1) fs + 1

/-- Characterization helper: the number of halt requests sent over `n`
iterations starting at iteration `i` with registration flag
`halt_registered` (at most one is ever sent). -/
def haltSends (running : Nat → Bool) (halt_registered : Bool) :
    Nat → Nat → Nat
  | _, 0 => 0
  | i, n + 1 =>
    if !(running i) && !halt_registered then 1
    else haltSends running halt_registered (i + 1) n

/-! ## File replay slicing (`MemsArrayH5.__run_thread` transfer loop,
h5.py 556-619)

As for the writer, a dataset or a frame is the list of its sample columns.
`current` is the dataset currently loaded in `transfer_buffer`, `ptr` is
`dataset_index_ptr`, and `rest` holds the datasets not yet opened. -/

/-- Read cursor of the replay transfer loop. -/
structure ReplayState (β : Type) where
  current : List β
  ptr : Nat
  rest : List (List β)
deriving Repr, DecidableEq

/-- One iteration of the transfer loop, with `F` the frame length, `D` the
dataset length and `pad` the zero column.  If at least `F` columns remain in
the current dataset (`dataset_index_ptr + frame_length <= dataset_length`)
the frame is the direct slice `transfer_buffer[:, ptr:ptr+F]`.  Otherwise,
when a next dataset exists, the frame is the clamped tail
`transfer_buffer[:, ptr:ptr+D]` followed by the head
`next[:, :F - (D - ptr)]` of the next dataset; when none remains, the frame
is the tail `transfer_buffer[:, ptr:D]` padded with `F - D + ptr` zero
columns (written `ptr + F - D`, its integer value in this branch) and the
loop stops (`file_endeed`). -/
def replayStep {β : Type} (F D : Nat) (pad : β) (s : ReplayState β) :
    List β × Option (ReplayState β) :=
  if s.ptr + F ≤ D then
    ((s.current.take (s.ptr + F)).drop s.ptr, some { s with ptr := s.ptr + F })
  else
    match s.rest with
    | next :: rest' =>
      let lastN := D - s.ptr
      let headLen := F - lastN
      ((s.current.take (s.ptr + D)).drop s.ptr ++ next.take headLen,
        some { current := next, ptr := headLen, rest := rest' })
    | [] =>
      ((s.current.take D).drop s.ptr ++ List.replicate (s.ptr + F - D) pad,
        none)

/-- The frames emitted by the transfer loop, driven by a fuel bound on the
iteration count (every property below holds for every fuel value). -/
def replayRun {β : Type} (F D : Nat) (pad : β) : Nat → ReplayState β → List (List β)
  | 0, _ => []
  | fuel + 1, s =>
    match replayStep F D pad s with
    | (frame, none) => [frame]
    | (frame, some s') => frame :: replayRun F D pad fuel s'

/-- The conceptual sample stream still to be emitted from a cursor: the rest
of the current dataset followed by the remaining datasets. -/
def replayStream {β : Type} (s : ReplayState β) : List β :=
  s.current.drop s.ptr ++ s.rest.flatten

/-! ## Producer-thread error handling
(base.py `__run_thread` 1000-1037 and `wait` 967-977; h5.py `__run_thread`
421-633; ws.py `__run_thread` 434-442, `__run` 445-551, `__remote_run`
574-648; db.py `__run_thread` 393-477) -/

/-- Class of an exception raised inside a producer thread, following the
hierarchy of the code: `MuH5Exception`, `MuWSException` and `MuDBException`
derive from `MuException`, which derives from Python `Exception`;
`genericExn` stands for any other `Exception`. -/
inductive ExnClass
  | muH5
  | muWS
  | muDB
  | mu
  | genericExn
deriving Repr, DecidableEq

/-- What becomes of an exception raised inside a producer thread: stored in
`_async_transfer_thread_exception` for `wait()` to re-raise, propagated out
of the thread target function (the thread dies with a traceback and nothing
is stored), or caught, logged and dropped. -/
inductive Disposition
  | captured
  | escaped
  | loggedOnly
deriving Repr, DecidableEq

/-- Synthetic backend `MemsArray.__run_thread` (base.py 1006-1037): the
whole loop body sits in a `try` whose `except Exception` handler stores the
exception in `_async_transfer_thread_exception`. -/
def baseThreadDisposition (_e : ExnClass) : Disposition :=
  Disposition.captured

/-- File-replay backend `MemsArrayH5.__run_thread` (h5.py 421-633): the
three handlers at lines 625-633 (`except MuH5Exception`, `except Exception`,
bare `except`) all log and then `raise e`, and the thread target has no
enclosing handler, so every exception escapes the thread function and
nothing is stored for `wait()`. -/
def h5ThreadDisposition (e : ExnClass) : Disposition :=
  match e with
  | ExnClass.muH5 => Disposition.escaped
  | _ => Disposition.escaped

/-- Which exception classes escape `MemsArrayWS.__run` (ws.py 445-551): its
whole body sits in a `try` whose `except Exception` handler only logs, and
`__remote_run` (ws.py 643-648) also only logs, so nothing escapes. -/
def wsRunEscapes (_e : ExnClass) : Option ExnClass :=
  none

/-- Remote-live backend `MemsArrayWS.__run_thread` (ws.py 434-442): it
stores into `_async_transfer_thread_exception` only a `MuWSException`
escaping `asyncio.run(self.__run())`; but `__run` lets nothing escape, so
every producer error ends up merely logged. -/
def wsThreadDisposition (e : ExnClass) : Disposition :=
  match wsRunEscapes e with
  | none => Disposition.loggedOnly
  | some e' =>
    if e' = ExnClass.muWS then Disposition.captured else Disposition.escaped

/-- Where in `MemsArrayDB.__run_thread` an exception is raised: during the
setup that precedes the `try` opening at db.py 426 (channel computation,
chunk sizing, and the range-overflow check whose `raise MuDBException` sits
at db.py 413-414), or during the streamed transfer inside that `try`. -/
inductive DbPhase
  | preStream
  | stream
deriving Repr, DecidableEq

/-- Database-replay backend `MemsArrayDB.__run_thread`: an exception raised
before the `try` starting at db.py 426 — notably the range-overflow
`raise MuDBException` at db.py 413-414 — has no enclosing handler on the
thread, so it escapes uncaught and unlogged; inside the `try`, both handlers
at db.py 472-477 (`except MuDBException`, `except Exception`) only log, and
nothing is ever stored for `wait()`. -/
def dbThreadDisposition (phase : DbPhase) (_e : ExnClass) : Disposition :=
  match phase with
  | DbPhase.preStream => Disposition.escaped
  | DbPhase.stream => Disposition.loggedOnly

/-- Python `MemsArray.wait` (base.py 967-977): joins the thread, and if an
exception is stored it clears the slot and raises a `MuException` wrapping
it.  Result: the exception raised by this call, and the slot content
afterwards — so only the first `wait()` after a failure raises. -/
def wait (stored : Option ExnClass) : Option ExnClass × Option ExnClass :=
  match stored with
  | some _ => (some ExnClass.mu, none)
  | none => (none, none)

/-- Value of the `running` flag after the synthetic `__run_thread` fails:
the thread sets it to true on entry (base.py 1010) and its `except` handler
(base.py 1035-1037) only logs and stores, never calling
`setRunningFlag(False)`, so the flag is still true. -/
def runningFlagAfterBaseThreadFailure : Bool :=
  true

/-! ## Writer invariants -/

/-- Sample-stream invariant of the recording state after processing the
frames `processed`: the flushed datasets followed by the buffered prefix are
exactly the input stream, the buffer is never full, every flushed dataset
holds `__h5_dataset_length` columns, and the sample count balances. -/
def WriterDataInv {α : Type} (cfg : H5WriterCfg) (processed : List (List α))
    (s : H5WriterState α) : Prop :=
  (allDatasets s).flatten ++ s.h5_buffer = processed.flatten
  ∧ s.h5_buffer.length < cfg.h5_dataset_length
  ∧ (∀ d ∈ allDatasets s, d.length = cfg.h5_dataset_length)
  ∧ (allDatasets s).length * cfg.h5_dataset_length + s.h5_buffer.length
      = processed.length * cfg.frame_length

/-- File-layout invariant of the recording state: the current file holds
`__h5_dataset_index` datasets, that index never exceeds the file capacity,
every closed file holds exactly `__h5_dataset_number` datasets, and the index
is zero only while nothing has ever been flushed. -/
def WriterFileInv {α : Type} (cfg : H5WriterCfg) (s : H5WriterState α) : Prop :=
  s.current_file.length = s.h5_dataset_index
  ∧ s.h5_dataset_index ≤ cfg.h5_dataset_number
  ∧ (∀ f ∈ s.closed_files, f.length = cfg.h5_dataset_number)
  ∧ (s.closed_files = [] ∧ s.h5_dataset_index = 0 ∨ 1 ≤ s.h5_dataset_index)

lemma h5_write_mems_buffering {α : Type} (cfg : H5WriterCfg)
    (s : H5WriterState α) (signal : List α)
    (hc : s.h5_buffer.length + cfg.frame_length < cfg.h5_dataset_length) :
    h5_write_mems cfg s signal = { s with h5_buffer := s.h5_buffer ++ signal } := by
  rw [h5_write_mems, if_pos hc]

lemma h5_write_mems_flush {α : Type} (cfg : H5WriterCfg)
    (s : H5WriterState α) (signal : List α)
    (hc : ¬ s.h5_buffer.length + cfg.frame_length < cfg.h5_dataset_length) :
    allDatasets (h5_write_mems cfg s signal)
        = allDatasets s
            ++ [s.h5_buffer ++ signal.take (cfg.h5_dataset_length - s.h5_buffer.length)]
    ∧ (h5_write_mems cfg s signal).h5_buffer
        = (signal.take cfg.frame_length).drop
            (cfg.h5_dataset_length - s.h5_buffer.length) := by
  rw [h5_write_mems, if_neg hc]
  by_cases hr : cfg.h5_dataset_number ≤ s.h5_dataset_index
  · simp [allDatasets, hr]
  · simp [allDatasets, hr]

/-- Already-flushed datasets are never rewritten: one `__h5_write_mems` call
only ever appends to the sequence of flushed datasets. -/
lemma allDatasets_monotone {α : Type} (cfg : H5WriterCfg)
    (s : H5WriterState α) (signal : List α) :
    ∃ t, allDatasets (h5_write_mems cfg s signal) = allDatasets s ++ t := by
  by_cases hc : s.h5_buffer.length + cfg.frame_length < cfg.h5_dataset_length
  · exact ⟨[], by rw [h5_write_mems_buffering cfg s signal hc]; simp [allDatasets]⟩
  · exact ⟨_, (h5_write_mems_flush cfg s signal hc).1⟩

lemma writerDataInv_step {α : Type} (cfg : H5WriterCfg)
    (hLD : cfg.frame_length ≤ cfg.h5_dataset_length)
    (ps : List (List α)) (s : H5WriterState α) (signal : List α)
    (hsig : signal.length = cfg.frame_length)
    (hinv : WriterDataInv cfg ps s) :
    WriterDataInv cfg (ps ++ [signal]) (h5_write_mems cfg s signal) := by
  obtain ⟨ha, hb, hc3, hd⟩ := hinv
  by_cases hc : s.h5_buffer.length + cfg.frame_length < cfg.h5_dataset_length
  · rw [h5_write_mems_buffering cfg s signal hc]
    refine ⟨?_, ?_, ?_, ?_⟩
    · show (allDatasets s).flatten ++ (s.h5_buffer ++ signal) = _
      rw [← List.append_assoc, ha, List.flatten_append]
      simp
    · simp only [List.length_append, hsig]
      exact hc
    · exact hc3
    · show (allDatasets s).length * cfg.h5_dataset_length
          + (s.h5_buffer ++ signal).length = _
      rw [List.length_append, hsig, List.length_append, List.length_singleton,
        Nat.add_mul, Nat.one_mul, ← Nat.add_assoc, hd]
  · obtain ⟨hflush, hbuf⟩ := h5_write_mems_flush cfg s signal hc
    have htr : cfg.h5_dataset_length - s.h5_buffer.length ≤ cfg.frame_length := by
      omega
    have htr1 : 1 ≤ cfg.h5_dataset_length - s.h5_buffer.length := by omega
    have htake : (signal.take cfg.frame_length) = signal := by
      rw [← hsig]; exact List.take_length signal
    have htlen : (signal.take (cfg.h5_dataset_length - s.h5_buffer.length)).length
        = cfg.h5_dataset_length - s.h5_buffer.length := by
      rw [List.length_take, hsig]
      omega
    refine ⟨?_, ?_, ?_, ?_⟩
    · rw [hflush, hbuf, htake, List.flatten_append]
      simp only [List.flatten_cons, List.flatten_nil, List.append_nil]
      rw [List.append_assoc, List.append_assoc, List.take_append_drop,
        ← List.append_assoc, ha, List.flatten_append]
      simp
    · rw [hbuf, htake, List.length_drop, hsig]
      omega
    · intro d hd'
      rw [hflush] at hd'
      rcases List.mem_append.mp hd' with h | h
      · exact hc3 d h
      · rw [List.mem_singleton.mp h, List.length_append, htlen]
        omega
    · rw [hflush, hbuf, htake, List.length_drop, hsig, List.length_append,
        List.length_singleton, List.length_append, List.length_singleton,
        Nat.add_mul, Nat.one_mul, Nat.add_mul, Nat.one_mul]
      have hD := hb
      generalize (allDatasets s).length * cfg.h5_dataset_length = a at hd ⊢
      generalize ps.length * cfg.frame_length = b at hd ⊢
      omega

lemma writerFileInv_step {α : Type} (cfg : H5WriterCfg)
    (hN : 1 ≤ cfg.h5_dataset_number)
    (s : H5WriterState α) (signal : List α)
    (hinv : WriterFileInv cfg s) :
    WriterFileInv cfg (h5_write_mems cfg s signal) := by
  obtain ⟨he, hf, hg, hh⟩ := hinv
  by_cases hc : s.h5_buffer.length + cfg.frame_length < cfg.h5_dataset_length
  · rw [h5_write_mems_buffering cfg s signal hc]
    exact ⟨he, hf, hg, hh⟩
  · rw [h5_write_mems, if_neg hc]
    by_cases hr : cfg.h5_dataset_number ≤ s.h5_dataset_index
    · have hidx : s.h5_dataset_index = cfg.h5_dataset_number := Nat.le_antisymm hf hr
      refine ⟨by simp [hr], by simp [hr]; omega, ?_, by simp [hr]⟩
      intro f hf'
      simp only [hr, if_pos] at hf'
      rcases List.mem_append.mp hf' with h | h
      · exact hg f h
      · rw [List.mem_singleton.mp h, he, hidx]
    · refine ⟨by simp [hr, he], by simp [hr]; omega, ?_, by simp [hr]⟩
      intro f hf'
      simp only [hr, if_neg, ite_false] at hf'
      exact hg f hf'

lemma writerDataInv_run {α : Type} (cfg : H5WriterCfg)
    (hLD : cfg.frame_length ≤ cfg.h5_dataset_length) :
    ∀ (frames ps : List (List α)) (s : H5WriterState α),
      WriterDataInv cfg ps s →
      (∀ f ∈ frames, f.length = cfg.frame_length) →
      WriterDataInv cfg (ps ++ frames) (frames.foldl (h5_write_mems cfg) s) := by
  intro frames
  induction frames with
  | nil => intro ps s h _; simpa using h
  | cons f fs ih =>
    intro ps s h hlen
    have h1 := writerDataInv_step cfg hLD ps s f (hlen f (by simp)) h
    have h2 := ih (ps ++ [f]) (h5_write_mems cfg s f) h1
      (fun g hg => hlen g (by simp [hg]))
    simpa using h2

lemma writerFileInv_run {α : Type} (cfg : H5WriterCfg)
    (hN : 1 ≤ cfg.h5_dataset_number) :
    ∀ (frames : List (List α)) (s : H5WriterState α),
      WriterFileInv cfg s →
      WriterFileInv cfg (frames.foldl (h5_write_mems cfg) s) := by
  intro frames
  induction frames with
  | nil => intro s h; exact h
  | cons f fs ih =>
    intro s h
    exact ih (h5_write_mems cfg s f) (writerFileInv_step cfg hN s f h)

lemma writerDataInv_init {α : Type} (cfg : H5WriterCfg)
    (hD : 1 ≤ cfg.h5_dataset_length) :
    WriterDataInv cfg ([] : List (List α)) h5WriterInit := by
  refine ⟨by simp [allDatasets, h5WriterInit], by simp [h5WriterInit]; omega,
    by simp [allDatasets, h5WriterInit], by simp [allDatasets, h5WriterInit]⟩

lemma writerFileInv_init {α : Type} (cfg : H5WriterCfg) :
    WriterFileInv cfg (h5WriterInit : H5WriterState α) := by
  refine ⟨by simp [h5WriterInit], by simp [h5WriterInit],
    by simp [h5WriterInit], by simp [h5WriterInit]⟩

lemma flatten_length_const {α : Type} (D : Nat) :
    ∀ (l : List (List α)), (∀ d ∈ l, d.length = D) →
      l.flatten.length = l.length * D := by
  intro l
  induction l with
  | nil => simp
  | cons d ds ih =>
    intro h
    simp only [List.flatten_cons, List.length_append, List.length_cons,
      h d (by simp), ih (fun e he => h e (by simp [he])), Nat.succ_mul]
    omega

/-! ## Theorems -/

/-- C10.  For every argument pair `(algo, level)` and every starting state,
`MemsArray.setH5Compressing` raises (the guard `str != 'gzip'` compares the
builtin type `str`, so it always fires, even for the documented valid call
`algo='gzip'` with a level between 0 and 9) and leaves the compression state
unchanged; hence H5 compression can never be switched on through this
method. -/
theorem setH5Compressing_always_raises (algo : String) (level : Int)
    (s : H5CompressionState) :
    setH5CompressingEffect algo level s
      = (s, some "The H5 compressing algo is not implemented") := rfl

/-- C3 (amended).  With frame length `L ≥ 1` bounded by the dataset length
`D` and `K` frames written, the writer flushes `K * L / D` (floor) datasets,
each of `D` columns; their concatenation is exactly the first
`K * L / D * D` columns of the input stream, hence the full stream precisely
when `D` divides `K * L`; and the root attributes hold the session sampling
frequency, the session dataset length, and the session channel count
whenever the counter channel is not present-and-skipped. -/
theorem h5_container_roundtrip {α : Type} (cfg : H5WriterCfg) (c : SessionCfg)
    (frames : List (List α))
    (hL : 1 ≤ cfg.frame_length)
    (hLD : cfg.frame_length ≤ cfg.h5_dataset_length)
    (hfr : ∀ f ∈ frames, f.length = cfg.frame_length)
    (hD : cfg.h5_dataset_length = c.h5_dataset_duration * c.sampling_frequency) :
    (allDatasets (writeFrames cfg frames)).length
        = frames.length * cfg.frame_length / cfg.h5_dataset_length
    ∧ (∀ d ∈ allDatasets (writeFrames cfg frames),
        d.length = cfg.h5_dataset_length)
    ∧ (allDatasets (writeFrames cfg frames)).flatten
        = frames.flatten.take
            (frames.length * cfg.frame_length / cfg.h5_dataset_length
              * cfg.h5_dataset_length)
    ∧ (cfg.h5_dataset_length ∣ frames.length * cfg.frame_length →
        (allDatasets (writeFrames cfg frames)).flatten = frames.flatten)
    ∧ (h5_init_file_attrs c).sampling_frequency = c.sampling_frequency
    ∧ (h5_init_file_attrs c).dataset_length = cfg.h5_dataset_length
    ∧ (¬ (c.counter = true ∧ c.counter_skip = true) →
        (h5_init_file_attrs c).channels_number = channels_number c) := by
  have hD1 : 1 ≤ cfg.h5_dataset_length := le_trans hL hLD
  have hinv := writerDataInv_run cfg hLD frames [] h5WriterInit
    (writerDataInv_init cfg hD1) hfr
  rw [List.nil_append] at hinv
  obtain ⟨ha, hb, hc3, hd⟩ := hinv
  rw [writeFrames] at *
  have hcount : (allDatasets (frames.foldl (h5_write_mems cfg) h5WriterInit)).length
      = frames.length * cfg.frame_length / cfg.h5_dataset_length := by
    rw [← hd, Nat.mul_comm, Nat.mul_add_div hD1,
      Nat.div_eq_of_lt hb, Nat.add_zero]
  have hflatlen : (allDatasets (frames.foldl (h5_write_mems cfg) h5WriterInit)).flatten.length
      = (allDatasets (frames.foldl (h5_write_mems cfg) h5WriterInit)).length
          * cfg.h5_dataset_length :=
    flatten_length_const cfg.h5_dataset_length _ hc3
  refine ⟨hcount, hc3, ?_, ?_, rfl, hD.symm, ?_⟩
  · rw [← ha, ← hcount, ← hflatlen, List.take_left]
  · intro hdvd
    have hrdvd : cfg.h5_dataset_length ∣
        (frames.foldl (h5_write_mems cfg) h5WriterInit).h5_buffer.length := by
      have h1 : cfg.h5_dataset_length ∣
          (allDatasets (frames.foldl (h5_write_mems cfg) h5WriterInit)).length
            * cfg.h5_dataset_length := Dvd.intro_left _ rfl
      rw [← hd] at hdvd
      exact (Nat.dvd_add_right h1).mp hdvd
    have hzero : (frames.foldl (h5_write_mems cfg) h5WriterInit).h5_buffer.length = 0 :=
      Nat.eq_zero_of_dvd_of_lt hrdvd hb
    have hnil : (frames.foldl (h5_write_mems cfg) h5WriterInit).h5_buffer = [] :=
      List.length_eq_zero.mp hzero
    rw [← ha, hnil, List.append_nil]
  · intro h
    simp [h5_init_file_attrs, h]

/-- C1.  Queue `put` never blocks: with capacity `N > 0` it drops the oldest
frame before inserting when full, so after pushing any frame sequence `xs`
the queue holds exactly the `min (|xs|) N` most recent frames of `xs` in
insertion order (the suffix `xs.drop (|xs| - N)`), never more than `N`
frames, and the lost counter equals the number of discarded frames
`|xs| - N` (truncated); with capacity `0` the queue is unbounded and holds
all of `xs` with no loss. -/
theorem queue_put_drops_oldest {α : Type} (maxsize : Nat) (xs : List α) :
    (queuePutAll maxsize xs).items
        = (if maxsize = 0 then xs else xs.drop (xs.length - maxsize))
    ∧ (queuePutAll maxsize xs).items.length
        = (if maxsize = 0 then xs.length else min xs.length maxsize)
    ∧ (queuePutAll maxsize xs).lost
        = (if maxsize = 0 then 0 else xs.length - maxsize) := by
  induction xs using List.reverseRecOn with
  | nil =>
    rcases Nat.eq_zero_or_pos maxsize with hm | hm
    · simp [queuePutAll, hm]
    · simp [queuePutAll, Nat.pos_iff_ne_zero.mp hm]
  | append_singleton xs x ih =>
    obtain ⟨hitems, hlen, hlost⟩ := ih
    have hstep : queuePutAll maxsize (xs ++ [x])
        = queuePut maxsize (queuePutAll maxsize xs) x := by
      simp [queuePutAll, List.foldl_append]
    rcases Nat.eq_zero_or_pos maxsize with hm | hm
    · subst hm
      simp only [if_pos rfl] at hitems hlen hlost
      constructor
      · simp [hstep, queuePut, hitems]
      constructor
      · simp [hstep, queuePut, hitems]
      · simp [hstep, queuePut, hlost]
    · have hm' : maxsize ≠ 0 := Nat.pos_iff_ne_zero.mp hm
      simp only [if_neg hm'] at hitems hlen hlost ⊢
      by_cases hle : maxsize ≤ xs.length
      · -- the queue is full: the oldest element is discarded
        have hcond : 0 < maxsize ∧ maxsize ≤ (queuePutAll maxsize xs).items.length := by
          refine ⟨hm, ?_⟩
          rw [hlen]
          omega
        have hi : (queuePutAll maxsize (xs ++ [x])).items
            = (xs ++ [x]).drop (xs.length + 1 - maxsize) := by
          rw [hstep, queuePut, if_pos hcond, hitems, List.tail_drop]
          have h1 : xs.length + 1 - maxsize = xs.length - maxsize + 1 := by omega
          have h2 : xs.length - maxsize + 1 ≤ xs.length := by omega
          rw [h1, List.drop_append_of_le_length h2]
        refine ⟨by simpa using hi, ?_, ?_⟩
        · rw [hi, List.length_drop]
          simp
          omega
        · rw [hstep, queuePut, if_pos hcond, hlost]
          simp
          omega
      · -- the queue is not yet full: plain insertion at the back
        have hcond : ¬ (0 < maxsize ∧ maxsize ≤ (queuePutAll maxsize xs).items.length) := by
          rw [hlen]
          omega
        have hi : (queuePutAll maxsize (xs ++ [x])).items = xs ++ [x] := by
          rw [hstep, queuePut, if_neg hcond, hitems]
          have h0 : xs.length - maxsize = 0 := by omega
          rw [h0, List.drop_zero]
        refine ⟨?_, ?_, ?_⟩
        · rw [hi]
          have h0 : (xs ++ [x]).length - maxsize = 0 := by simp; omega
          rw [h0, List.drop_zero]
        · rw [hi]
          simp
          omega
        · rw [hstep, queuePut, if_neg hcond, hlost]
          simp
          omega

/-- Witness for C3: a concrete run with two channels-worth columns, frame
length 1, dataset length 2 and four frames, evaluating every hypothesis and
the conclusion of `h5_container_roundtrip`. -/
theorem h5_container_roundtrip_witness :
    (1 ≤ (H5WriterCfg.mk 1 2 5).frame_length)
    ∧ ((H5WriterCfg.mk 1 2 5).frame_length ≤ (H5WriterCfg.mk 1 2 5).h5_dataset_length)
    ∧ (∀ f ∈ [[(1:Int)], [2], [3], [4]], f.length = (H5WriterCfg.mk 1 2 5).frame_length)
    ∧ ((H5WriterCfg.mk 1 2 5).h5_dataset_length
        = (SessionCfg.mk 2 0 false false false 2 1).h5_dataset_duration
            * (SessionCfg.mk 2 0 false false false 2 1).sampling_frequency)
    ∧ ((allDatasets (writeFrames (H5WriterCfg.mk 1 2 5) [[(1:Int)], [2], [3], [4]])).length
        = ([[(1:Int)], [2], [3], [4]].length * (H5WriterCfg.mk 1 2 5).frame_length
            / (H5WriterCfg.mk 1 2 5).h5_dataset_length)
      ∧ (∀ d ∈ allDatasets (writeFrames (H5WriterCfg.mk 1 2 5) [[(1:Int)], [2], [3], [4]]),
          d.length = (H5WriterCfg.mk 1 2 5).h5_dataset_length)
      ∧ ((allDatasets (writeFrames (H5WriterCfg.mk 1 2 5) [[(1:Int)], [2], [3], [4]])).flatten
          = [[(1:Int)], [2], [3], [4]].flatten.take
              ([[(1:Int)], [2], [3], [4]].length * (H5WriterCfg.mk 1 2 5).frame_length
                  / (H5WriterCfg.mk 1 2 5).h5_dataset_length
                * (H5WriterCfg.mk 1 2 5).h5_dataset_length))
      ∧ ((H5WriterCfg.mk 1 2 5).h5_dataset_length
            ∣ [[(1:Int)], [2], [3], [4]].length * (H5WriterCfg.mk 1 2 5).frame_length →
          (allDatasets (writeFrames (H5WriterCfg.mk 1 2 5) [[(1:Int)], [2], [3], [4]])).flatten
            = [[(1:Int)], [2], [3], [4]].flatten)
      ∧ (h5_init_file_attrs (SessionCfg.mk 2 0 false false false 2 1)).sampling_frequency
          = (SessionCfg.mk 2 0 false false false 2 1).sampling_frequency
      ∧ (h5_init_file_attrs (SessionCfg.mk 2 0 false false false 2 1)).dataset_length
          = (H5WriterCfg.mk 1 2 5).h5_dataset_length
      ∧ (¬ ((SessionCfg.mk 2 0 false false false 2 1).counter = true
              ∧ (SessionCfg.mk 2 0 false false false 2 1).counter_skip = true) →
          (h5_init_file_attrs (SessionCfg.mk 2 0 false false false 2 1)).channels_number
            = channels_number (SessionCfg.mk 2 0 false false false 2 1))) :=
  ⟨by decide, by decide, by decide, by decide,
    h5_container_roundtrip (H5WriterCfg.mk 1 2 5) (SessionCfg.mk 2 0 false false false 2 1)
      [[(1:Int)], [2], [3], [4]] (by decide) (by decide) (by decide) (by decide)⟩

/-- Counterexample for C3 as stated.  With frame length 1, dataset length 2
and a single written frame, the writer flushes 0 datasets while
`ceil(K*L/D) = 1`, so the concatenation cannot reconstruct the signal; and
with a present-but-skipped counter the root attribute `channels_number`
differs from the session's `channels_number` property. -/
theorem h5_container_roundtrip_counterexample :
    (allDatasets (writeFrames (H5WriterCfg.mk 1 2 5) [[(9:Int)]])).length = 0
    ∧ (1 * 1 + 2 - 1) / 2 = 1
    ∧ (allDatasets (writeFrames (H5WriterCfg.mk 1 2 5) [[(9:Int)]])).flatten ≠ [(9:Int)]
    ∧ (h5_init_file_attrs (SessionCfg.mk 1 0 true true false 2 1)).channels_number
        ≠ (channels_number (SessionCfg.mk 1 0 true true false 2 1) : Int) := by
  decide

/-- C4.  Writing exactly enough frames to flush `dataset_number + 1` datasets
(a total of `(N+1) * D` samples) leaves exactly 2 container files: one closed
file holding exactly `dataset_number` datasets and a current file holding
exactly 1; moreover a write step only ever appends to the flushed-dataset
sequence (already-flushed datasets are never rewritten). -/
theorem h5_file_rotation {α : Type} (cfg : H5WriterCfg) (frames : List (List α))
    (hL : 1 ≤ cfg.frame_length)
    (hLD : cfg.frame_length ≤ cfg.h5_dataset_length)
    (hN : 1 ≤ cfg.h5_dataset_number)
    (hfr : ∀ f ∈ frames, f.length = cfg.frame_length)
    (hT : frames.length * cfg.frame_length
        = (cfg.h5_dataset_number + 1) * cfg.h5_dataset_length) :
    (writeFrames cfg frames).closed_files.length = 1
    ∧ (∀ f ∈ (writeFrames cfg frames).closed_files,
        f.length = cfg.h5_dataset_number)
    ∧ (writeFrames cfg frames).current_file.length = 1
    ∧ ∀ (s : H5WriterState α) (signal : List α),
        ∃ t, allDatasets (h5_write_mems cfg s signal) = allDatasets s ++ t := by
  have hD1 : 1 ≤ cfg.h5_dataset_length := le_trans hL hLD
  have hdata := writerDataInv_run cfg hLD frames [] h5WriterInit
    (writerDataInv_init cfg hD1) hfr
  rw [List.nil_append] at hdata
  obtain ⟨ha, hb, hc3, hd⟩ := hdata
  have hfile := writerFileInv_run cfg hN frames h5WriterInit (writerFileInv_init cfg)
  obtain ⟨he, hf, hg, hh⟩ := hfile
  rw [writeFrames] at *
  -- the buffer is empty and exactly N+1 datasets were flushed
  have hr0 : (frames.foldl (h5_write_mems cfg) h5WriterInit).h5_buffer.length = 0 := by
    have h1 : ((allDatasets (frames.foldl (h5_write_mems cfg) h5WriterInit)).length
          * cfg.h5_dataset_length
        + (frames.foldl (h5_write_mems cfg) h5WriterInit).h5_buffer.length)
          % cfg.h5_dataset_length
        = ((cfg.h5_dataset_number + 1) * cfg.h5_dataset_length) % cfg.h5_dataset_length := by
      rw [hd, hT]
    rw [Nat.mul_comm, Nat.mul_add_mod, Nat.mul_mod_left,
      Nat.mod_eq_of_lt hb] at h1
    exact h1
  have hcount : (allDatasets (frames.foldl (h5_write_mems cfg) h5WriterInit)).length
      = cfg.h5_dataset_number + 1 := by
    rw [hT, hr0, Nat.add_zero] at hd
    exact Nat.eq_of_mul_eq_mul_right (by omega) hd
  -- translate the dataset count into file lengths
  have hkey : (frames.foldl (h5_write_mems cfg) h5WriterInit).closed_files.length
        * cfg.h5_dataset_number
      + (frames.foldl (h5_write_mems cfg) h5WriterInit).h5_dataset_index
      = cfg.h5_dataset_number + 1 := by
    have hflat : (frames.foldl (h5_write_mems cfg) h5WriterInit).closed_files.flatten.length
        = (frames.foldl (h5_write_mems cfg) h5WriterInit).closed_files.length
            * cfg.h5_dataset_number :=
      flatten_length_const cfg.h5_dataset_number _ hg
    have hlen : (allDatasets (frames.foldl (h5_write_mems cfg) h5WriterInit)).length
        = (frames.foldl (h5_write_mems cfg) h5WriterInit).closed_files.flatten.length
          + (frames.foldl (h5_write_mems cfg) h5WriterInit).current_file.length := by
      rw [allDatasets, List.length_append]
    rw [hlen, hflat, he] at hcount
    exact hcount
  have hidx1 : 1 ≤ (frames.foldl (h5_write_mems cfg) h5WriterInit).h5_dataset_index := by
    rcases hh with ⟨hemp, h0⟩ | h1
    · rw [hemp, h0] at hkey
      simp at hkey
    · exact h1
  have hcl_le : (frames.foldl (h5_write_mems cfg) h5WriterInit).closed_files.length ≤ 1 := by
    by_contra hgt
    push_neg at hgt
    have h2 : 2 * cfg.h5_dataset_number
        ≤ (frames.foldl (h5_write_mems cfg) h5WriterInit).closed_files.length
            * cfg.h5_dataset_number :=
      Nat.mul_le_mul_right _ hgt
    generalize (frames.foldl (h5_write_mems cfg) h5WriterInit).closed_files.length
      * cfg.h5_dataset_number = P at hkey h2
    omega
  have hcl_ge : 1 ≤ (frames.foldl (h5_write_mems cfg) h5WriterInit).closed_files.length := by
    by_contra hlt
    push_neg at hlt
    have h0 : (frames.foldl (h5_write_mems cfg) h5WriterInit).closed_files.length = 0 := by
      omega
    rw [h0, Nat.zero_mul] at hkey
    omega
  have hcl : (frames.foldl (h5_write_mems cfg) h5WriterInit).closed_files.length = 1 := by
    omega
  refine ⟨hcl, hg, ?_, fun s signal => allDatasets_monotone cfg s signal⟩
  rw [hcl, Nat.one_mul] at hkey
  rw [he]
  omega

/-- Witness for C4: frame length 1, dataset length 1, file capacity 1 and two
frames; the run ends with one closed file of 1 dataset and a current file of
1 dataset. -/
theorem h5_file_rotation_witness :
    (1 ≤ (H5WriterCfg.mk 1 1 1).frame_length)
    ∧ ((H5WriterCfg.mk 1 1 1).frame_length ≤ (H5WriterCfg.mk 1 1 1).h5_dataset_length)
    ∧ (1 ≤ (H5WriterCfg.mk 1 1 1).h5_dataset_number)
    ∧ (∀ f ∈ [[(7:Int)], [8]], f.length = (H5WriterCfg.mk 1 1 1).frame_length)
    ∧ ([[(7:Int)], [8]].length * (H5WriterCfg.mk 1 1 1).frame_length
        = ((H5WriterCfg.mk 1 1 1).h5_dataset_number + 1)
            * (H5WriterCfg.mk 1 1 1).h5_dataset_length)
    ∧ ((writeFrames (H5WriterCfg.mk 1 1 1) [[(7:Int)], [8]]).closed_files.length = 1
      ∧ (∀ f ∈ (writeFrames (H5WriterCfg.mk 1 1 1) [[(7:Int)], [8]]).closed_files,
          f.length = (H5WriterCfg.mk 1 1 1).h5_dataset_number)
      ∧ (writeFrames (H5WriterCfg.mk 1 1 1) [[(7:Int)], [8]]).current_file.length = 1
      ∧ ∀ (s : H5WriterState Int) (signal : List Int),
          ∃ t, allDatasets (h5_write_mems (H5WriterCfg.mk 1 1 1) s signal)
            = allDatasets s ++ t) :=
  ⟨by decide, by decide, by decide, by decide, by decide,
    h5_file_rotation (H5WriterCfg.mk 1 1 1) [[(7:Int)], [8]]
      (by decide) (by decide) (by decide) (by decide) (by decide)⟩

lemma maskSelect_self_mask {β : Type} (l : List β) (p : β → Bool) :
    maskSelect l (l.map p) = l.filter p := by
  induction l with
  | nil => rfl
  | cons x xs ih =>
    by_cases h : p x <;>
      simp only [maskSelect, List.map_cons, List.zip_cons_cons,
        List.filterMap_cons, List.filter_cons, h, if_pos, if_neg,
        ite_true, ite_false] <;>
      simpa [maskSelect] using ih

/-- C5 (amended).  Channel activation is idempotent: a successful
`setActiveMems(mems)` leaves a state on which the same call succeeds with
the same state; but the replay output columns follow the storage order of
the file's available-mems list, not the activation order — the selected
rows are exactly `available.filter (mems.contains)`. -/
theorem setActiveMems_idempotent_storage_order (s s' : MemsState)
    (mems : List Nat) (h : setActiveMems s mems = Except.ok s') :
    setActiveMems s' mems = Except.ok s'
    ∧ s'.available_mems = s.available_mems
    ∧ maskSelect s'.available_mems (mems_mask s'.available_mems s'.mems)
        = s'.available_mems.filter (fun c => s'.mems.contains c) := by
  have hmask : ∀ (t : MemsState),
      maskSelect t.available_mems (mems_mask t.available_mems t.mems)
        = t.available_mems.filter (fun c => t.mems.contains c) :=
    fun t => maskSelect_self_mask t.available_mems (fun c => t.mems.contains c)
  unfold setActiveMems at h
  split_ifs at h with h1 h2 h3
  · cases h
    refine ⟨?_, rfl, hmask _⟩
    simp [setActiveMems, h1]
  · cases h
    refine ⟨?_, rfl, hmask _⟩
    have h3' : ∀ x ∈ mems, x ∈ s.available_mems := by simpa using h3
    simp [setActiveMems, h1, h2, h3]
    exact h3'

/-- Witness for C5: activating `[3,1,2]` among available `[0,1,2,3]`
succeeds, is idempotent, and selects storage-ordered columns. -/
theorem setActiveMems_idempotent_storage_order_witness :
    setActiveMems (MemsState.mk [0, 1, 2, 3] []) [3, 1, 2]
        = Except.ok (MemsState.mk [0, 1, 2, 3] [3, 1, 2])
    ∧ (setActiveMems (MemsState.mk [0, 1, 2, 3] [3, 1, 2]) [3, 1, 2]
          = Except.ok (MemsState.mk [0, 1, 2, 3] [3, 1, 2])
      ∧ (MemsState.mk [0, 1, 2, 3] [3, 1, 2]).available_mems
          = (MemsState.mk [0, 1, 2, 3] []).available_mems
      ∧ maskSelect (MemsState.mk [0, 1, 2, 3] [3, 1, 2]).available_mems
            (mems_mask (MemsState.mk [0, 1, 2, 3] [3, 1, 2]).available_mems
              (MemsState.mk [0, 1, 2, 3] [3, 1, 2]).mems)
          = (MemsState.mk [0, 1, 2, 3] [3, 1, 2]).available_mems.filter
              (fun c => (MemsState.mk [0, 1, 2, 3] [3, 1, 2]).mems.contains c)) :=
  ⟨rfl, setActiveMems_idempotent_storage_order
    (MemsState.mk [0, 1, 2, 3] []) (MemsState.mk [0, 1, 2, 3] [3, 1, 2])
    [3, 1, 2] rfl⟩

/-- Counterexample for C5 as stated: activating mics `[3,1,2]` on a file
whose available mems are `[0,1,2,3]` yields output columns `[1,2,3]` (the
storage order), not `[3,1,2]` (the activation order). -/
theorem setActiveMems_activation_order_counterexample :
    setActiveMems (MemsState.mk [0, 1, 2, 3] []) [3, 1, 2]
        = Except.ok (MemsState.mk [0, 1, 2, 3] [3, 1, 2])
    ∧ maskSelect [0, 1, 2, 3] (mems_mask [0, 1, 2, 3] [3, 1, 2]) = [1, 2, 3]
    ∧ [1, 2, 3] ≠ [3, 1, 2] := by
  refine ⟨rfl, rfl, by decide⟩

/-- C7.  The item that every iteration of the synthetic producer puts into
the signal queue is Python `None`, for every datatype and every generated
frame: `_run_process_data_float32` computes the converted buffer in a local
variable but has no `return` statement, contradicting its own docstring
(and the spec), which promise the converted `bytes|np.ndarray` value. -/
theorem syntheticQueueItem_is_none (sensibility : Rat) (dt : Datatype)
    (data : List (List Rat)) :
    syntheticQueueItem sensibility dt data = none
    ∧ syntheticQueueItem sensibility dt data
        ≠ some (run_process_data_float32_local sensibility dt data) :=
  ⟨rfl, by simp [syntheticQueueItem, run_process_data_float32]⟩

lemma chunksOfAux_flatten {β : Type} (n : Nat) (hn : 1 ≤ n) :
    ∀ (fuel : Nat) (l : List β), l.length ≤ fuel →
      (chunksOfAux n fuel l).flatten = l := by
  intro fuel
  induction fuel with
  | zero =>
    intro l hl
    rw [List.length_eq_zero.mp (Nat.le_zero.mp hl)]
    rfl
  | succ fuel ih =>
    intro l hl
    match l with
    | [] => rfl
    | x :: xs =>
      simp only [chunksOfAux, List.flatten_cons]
      rw [ih ((x :: xs).drop n) (by simp only [List.length_drop]; simp at hl ⊢; omega)]
      exact List.take_append_drop n (x :: xs)

lemma chunksOfAux_length_le {β : Type} (n : Nat) :
    ∀ (fuel : Nat) (l : List β), ∀ c ∈ chunksOfAux n fuel l, c.length ≤ n := by
  intro fuel
  induction fuel with
  | zero => intro l c hc; simp [chunksOfAux] at hc
  | succ fuel ih =>
    intro l c hc
    match l with
    | [] => simp [chunksOfAux] at hc
    | x :: xs =>
      simp only [chunksOfAux, List.mem_cons] at hc
      rcases hc with h | h
      · rw [h]
        exact List.length_take_le n (x :: xs)
      · exact ih _ c h

/-- C9 (amended).  The database replay raises before forwarding anything
exactly when `content_length % chunk_size` is not a multiple of the
channel-row size `channels_number * 4` (the code checks divisibility, not
equality with the row size); when the check passes, the body is forwarded
split into chunks of at most `chunk_size = frame_length * channels_number *
4` bytes whose concatenation is the whole body. -/
theorem dbRun_content_length_check {β : Type} (frame_length : Nat)
    (channels : List Nat) (body : List β)
    (hF : 1 ≤ frame_length) (hch : 1 ≤ channels.length) :
    ((∃ msg, dbRun frame_length channels body = Except.error msg) ↔
        ¬ (channels.length * 4 ∣
            body.length % (frame_length * channels.length * 4)))
    ∧ ∀ chunks, dbRun frame_length channels body = Except.ok chunks →
        chunks.flatten = body
        ∧ ∀ c ∈ chunks, c.length ≤ frame_length * channels.length * 4 := by
  constructor
  · rw [Nat.dvd_iff_mod_eq_zero]
    constructor
    · rintro ⟨msg, hmsg⟩
      intro hmod
      rw [dbRun] at hmsg
      simp only [hmod, ne_eq, not_true_eq_false, if_neg, ite_false,
        not_false_eq_true, if_pos] at hmsg
      exact absurd hmsg (by simp)
    · intro hmod
      refine ⟨"Inconsistency between data received and query", ?_⟩
      rw [dbRun, if_pos hmod]
  · intro chunks hchunks
    rw [dbRun] at hchunks
    by_cases hmod : body.length % (frame_length * channels.length * 4)
        % (channels.length * 4) ≠ 0
    · rw [if_pos hmod] at hchunks
      exact absurd hchunks (by simp)
    · rw [if_neg hmod] at hchunks
      have hchunks' : chunks = chunksOf (frame_length * channels.length * 4) body := by
        injection hchunks with h
        exact h.symm
      subst hchunks'
      have hn : 1 ≤ frame_length * channels.length * 4 := by
        have := Nat.mul_le_mul hF hch
        omega
      exact ⟨chunksOfAux_flatten _ hn body.length body (Nat.le_refl _),
        chunksOfAux_length_le _ body.length body⟩

/-- Witness for C9: one channel, frame length 1, a 4-byte body: the check
passes (no error) and the body is forwarded as one full chunk. -/
theorem dbRun_content_length_check_witness :
    (1 ≤ (1 : Nat)) ∧ (1 ≤ [(0 : Nat)].length)
    ∧ (((∃ msg, dbRun 1 [0] [true, false, true, false] = Except.error msg) ↔
        ¬ ([(0 : Nat)].length * 4 ∣
            [true, false, true, false].length % (1 * [(0 : Nat)].length * 4)))
      ∧ ∀ chunks, dbRun 1 [0] [true, false, true, false] = Except.ok chunks →
          chunks.flatten = [true, false, true, false]
          ∧ ∀ c ∈ chunks, c.length ≤ 1 * [(0 : Nat)].length * 4) :=
  ⟨by decide, by decide,
    dbRun_content_length_check 1 [0] [true, false, true, false]
      (by decide) (by decide)⟩

/-- Counterexample for C9 as stated: a body of exactly two full chunks has
`content_length % chunk_size = 0`, which differs from the channel-row size
`channels_number * 4 = 4`, yet the code accepts it (and rightly so). -/
theorem dbRun_equality_check_counterexample :
    dbRun 2 [0] (List.replicate 16 true)
        = Except.ok [List.replicate 8 true, List.replicate 8 true]
    ∧ (List.replicate 16 true).length % (2 * 1 * 4) ≠ 1 * 4 :=
  ⟨rfl, by decide⟩

lemma haltSends_of_registered (running : Nat → Bool) :
    ∀ (i n : Nat), haltSends running true i n = 0 := by
  intro i n
  induction n generalizing i with
  | zero => rfl
  | succ n ih => simp [haltSends, ih]

lemma remoteRunAux_spec {β : Type} (running : Nat → Bool) (c : WsStatusMsg)
    (rest : List (WsMsg β)) :
    ∀ (bins : List β) (i : Nat) (halt_registered : Bool) (queued : List β)
      (lost halts : Nat),
      remoteRunAux running
          (bins.map WsMsg.binary ++ WsMsg.control c :: rest)
          i halt_registered queued lost halts
        = { queued := queued ++ keptFrames running i bins
            lost := lost + lostFramesCount running i bins
            halts_sent := halts + haltSends running halt_registered i (bins.length + 1)
            outcome := controlOutcome c } := by
  intro bins
  induction bins with
  | nil =>
    intro i reg queued lost halts
    by_cases hr : running i <;> by_cases hreg : reg <;>
      simp [remoteRunAux, keptFrames, lostFramesCount, haltSends, hr, hreg]
  | cons f fs ih =>
    intro i reg queued lost halts
    simp only [List.map_cons, List.cons_append, remoteRunAux]
    by_cases hr : running i
    · rw [if_pos hr]
      simp only [hr, Bool.not_true, Bool.false_and, Bool.or_false, if_neg,
        Bool.false_eq_true, ite_false, List.append_eq]
      rw [ih]
      simp [keptFrames, lostFramesCount, haltSends, hr]
    · rw [if_neg hr]
      by_cases hreg : reg
      · simp only [hr, hreg, Bool.not_false, Bool.not_true, Bool.and_false,
          Bool.or_false, Bool.false_eq_true, ite_false, List.append_eq]
        rw [ih]
        simp only [keptFrames, lostFramesCount, haltSends, hr, hreg,
          Bool.not_false, Bool.not_true, Bool.and_false, Bool.true_and,
          ite_false, Bool.false_eq_true, if_neg, List.length_cons]
        simp only [WsRunResult.mk.injEq, true_and, and_true]
        omega
      · simp only [hr, hreg, Bool.not_false, Bool.and_self, Bool.or_true,
          ite_true, Bool.true_eq_false, if_pos, List.append_eq]
        rw [ih]
        simp only [keptFrames, lostFramesCount, haltSends, hr, hreg,
          Bool.not_false, Bool.and_self, ite_true, List.length_cons,
          haltSends_of_registered]
        simp only [Bool.not_true, Bool.and_false, Bool.false_eq_true,
          ite_false, WsRunResult.mk.injEq, haltSends_of_registered,
          true_and, and_true]
        omega

/-- C6 (amended).  The receive loop keeps consuming until the first control
message — which is a halt acknowledgment, a `completed` status or an
exception — regardless of how many binary frames precede it; a binary frame
received while the running flag is still true is delivered to the signal
queue in order, but a frame received after the flag turned false is
discarded and only counted in `transfer_lost` (in-flight frames are NOT
queued after a halt request); the halt request is sent at the first
iteration that observes the lowered flag, at most once. -/
theorem remote_run_consumes_until_control {β : Type} (running : Nat → Bool)
    (bins : List β) (c : WsStatusMsg) (rest : List (WsMsg β)) :
    remote_run running (bins.map WsMsg.binary ++ WsMsg.control c :: rest)
      = { queued := keptFrames running 0 bins
          lost := lostFramesCount running 0 bins
          halts_sent := haltSends running false 0 (bins.length + 1)
          outcome := controlOutcome c } := by
  have h := remoteRunAux_spec running c rest bins 0 false [] 0 0
  simpa [remote_run] using h

/-- Counterexample for C6 as stated: the producer stops after one iteration;
the second binary frame arrives after the halt request but before the halt
acknowledgment, and it is dropped (counted lost), not delivered. -/
theorem remote_run_inflight_frames_counterexample :
    remote_run (fun i => decide (i < 1))
        [WsMsg.binary (1 : Nat), WsMsg.binary 2,
          WsMsg.control (WsStatusMsg.mk "status" "ok" (some "halt") none)]
      = { queued := [1], lost := 1, halts_sent := 1
          outcome := WsOutcome.haltAcknowledged }
    ∧ [1] ≠ [1, 2] := by
  refine ⟨rfl, by decide⟩

lemma replayRun_step_some {β : Type} (F D : Nat) (pad : β) (fuel : Nat)
    (s s' : ReplayState β) (frame : List β)
    (h : replayStep F D pad s = (frame, some s')) :
    replayRun F D pad (fuel + 1) s = frame :: replayRun F D pad fuel s' := by
  simp only [replayRun, h]

lemma replayRun_step_none {β : Type} (F D : Nat) (pad : β) (fuel : Nat)
    (s : ReplayState β) (frame : List β)
    (h : replayStep F D pad s = (frame, none)) :
    replayRun F D pad (fuel + 1) s = [frame] := by
  simp only [replayRun, h]

lemma replayStep_direct {β : Type} (F D : Nat) (pad : β) (s : ReplayState β)
    (hcur : s.current.length = D) (hdir : s.ptr + F ≤ D) :
    replayStep F D pad s
        = ((replayStream s).take F, some { s with ptr := s.ptr + F })
    ∧ replayStream { s with ptr := s.ptr + F } = (replayStream s).drop F
    ∧ F ≤ (replayStream s).length := by
  have hsl : F ≤ (s.current.drop s.ptr).length := by
    rw [List.length_drop, hcur]
    omega
  have h1 : (s.current.take (s.ptr + F)).drop s.ptr
      = (s.current.drop s.ptr).take F := by
    rw [List.drop_take]
    congr 1
    omega
  have h2 : (replayStream s).take F = (s.current.drop s.ptr).take F :=
    List.take_append_of_le_length hsl
  refine ⟨?_, ?_, ?_⟩
  · rw [replayStep, if_pos hdir, h1, ← h2]
  · show s.current.drop (s.ptr + F) ++ s.rest.flatten = _
    rw [replayStream, List.drop_append_of_le_length hsl, List.drop_drop]
  · calc F ≤ (s.current.drop s.ptr).length := hsl
      _ ≤ (replayStream s).length := by
          rw [replayStream, List.length_append]
          omega

lemma replayStep_boundary {β : Type} (F D : Nat) (pad : β)
    (s : ReplayState β) (next : List β) (rest' : List (List β))
    (hcur : s.current.length = D) (hptr : s.ptr ≤ D) (hFD : F ≤ D)
    (hnext : next.length = D)
    (hdir : ¬ s.ptr + F ≤ D) (hr : s.rest = next :: rest') :
    replayStep F D pad s
        = ((replayStream s).take F,
            some (ReplayState.mk next (F - (D - s.ptr)) rest'))
    ∧ replayStream (ReplayState.mk next (F - (D - s.ptr)) rest')
        = (replayStream s).drop F
    ∧ F ≤ (replayStream s).length
    ∧ F - (D - s.ptr) ≤ D := by
  have htails : (s.current.drop s.ptr).length = D - s.ptr := by
    rw [List.length_drop, hcur]
  have htail_le : (s.current.drop s.ptr).length ≤ F := by omega
  have hhead_le : F - (D - s.ptr) ≤ next.length := by omega
  have htake_all : s.current.take (s.ptr + D) = s.current :=
    List.take_of_length_le (by omega)
  have hstream : replayStream s
      = s.current.drop s.ptr ++ (next ++ rest'.flatten) := by
    rw [replayStream, hr, List.flatten_cons]
  refine ⟨?_, ?_, ?_, by omega⟩
  · rw [replayStep, if_neg hdir, hr]
    simp only []
    rw [htake_all, hstream, List.take_append_eq_append_take,
      List.take_of_length_le htail_le, htails,
      List.take_append_of_le_length hhead_le]
  · show next.drop (F - (D - s.ptr)) ++ rest'.flatten = _
    rw [hstream, List.drop_append_eq_append_drop,
      List.drop_of_length_le htail_le, htails,
      List.drop_append_of_le_length hhead_le, List.nil_append]
  · rw [hstream, List.length_append, List.length_append, hnext]
    omega

lemma replayStep_final {β : Type} (F D : Nat) (pad : β) (s : ReplayState β)
    (hcur : s.current.length = D)
    (hdir : ¬ s.ptr + F ≤ D) (hr : s.rest = []) :
    replayStep F D pad s
        = (replayStream s ++ List.replicate (s.ptr + F - D) pad, none)
    ∧ (replayStream s).length = D - s.ptr := by
  have hstream : replayStream s = s.current.drop s.ptr := by
    rw [replayStream, hr, List.flatten_nil, List.append_nil]
  have htake_all : s.current.take D = s.current := by
    rw [← hcur, List.take_length]
  constructor
  · rw [replayStep, if_neg hdir, hr, htake_all, hstream]
  · rw [hstream, List.length_drop, hcur]

lemma replay_glue {β : Type} (F : Nat) (pad : β) (stream : List β)
    (out' : List (List β)) (hF : F ≤ stream.length)
    (hflat' : out'.flatten
        = (stream.drop F).take (out'.length * F)
          ++ List.replicate (out'.length * F - (stream.drop F).length) pad) :
    stream.take F ++ out'.flatten
      = stream.take ((out'.length + 1) * F)
        ++ List.replicate ((out'.length + 1) * F - stream.length) pad := by
  rw [hflat', show (out'.length + 1) * F = F + out'.length * F by ring,
    List.take_add, List.append_assoc]
  congr 2
  rw [List.length_drop]
  congr 1
  omega

/-- C8 (amended).  With frame length `1 ≤ F ≤ D` and well-formed datasets
of length `D`, the replay loop emits frames of exactly `F` columns each, and
the concatenation of the emitted frames is always a prefix of the remaining
sample stream extended by zero padding: the stream is continuous across
dataset boundaries, with no column repeated or skipped, and zero columns
appear only past the end of the source (this holds for every iteration
budget `fuel`). -/
theorem replay_frames_exact_and_continuous {β : Type} (F D : Nat) (pad : β)
    (hF : 1 ≤ F) (hFD : F ≤ D) :
    ∀ (fuel : Nat) (s : ReplayState β),
      s.current.length = D → s.ptr ≤ D → (∀ d ∈ s.rest, d.length = D) →
      (∀ fr ∈ replayRun F D pad fuel s, fr.length = F)
      ∧ (replayRun F D pad fuel s).flatten
          = (replayStream s).take ((replayRun F D pad fuel s).length * F)
            ++ List.replicate
                ((replayRun F D pad fuel s).length * F
                  - (replayStream s).length) pad := by
  intro fuel
  induction fuel with
  | zero =>
    intro s _ _ _
    simp [replayRun]
  | succ fuel ih =>
    intro s hcur hptr hrest
    by_cases hdir : s.ptr + F ≤ D
    · obtain ⟨hstep, hstream, hFle⟩ := replayStep_direct F D pad s hcur hdir
      rw [replayRun_step_some F D pad fuel _ _ _ hstep]
      obtain ⟨ih1, ih2⟩ := ih { s with ptr := s.ptr + F } hcur hdir hrest
      constructor
      · intro fr hfr
        rcases List.mem_cons.mp hfr with h | h
        · rw [h, List.length_take]
          omega
        · exact ih1 fr h
      · simp only [List.flatten_cons, List.length_cons]
        rw [hstream] at ih2
        exact replay_glue F pad (replayStream s) _ hFle ih2
    · cases hr : s.rest with
      | cons next rest' =>
        have hnext : next.length = D := hrest next (by rw [hr]; simp)
        obtain ⟨hstep, hstream, hFle, hptr'⟩ :=
          replayStep_boundary F D pad s next rest' hcur hptr hFD hnext hdir hr
        rw [replayRun_step_some F D pad fuel _ _ _ hstep]
        obtain ⟨ih1, ih2⟩ := ih (ReplayState.mk next (F - (D - s.ptr)) rest')
          hnext hptr' (fun d hd => hrest d (by rw [hr]; simp [hd]))
        constructor
        · intro fr hfr
          rcases List.mem_cons.mp hfr with h | h
          · rw [h, List.length_take]
            omega
          · exact ih1 fr h
        · simp only [List.flatten_cons, List.length_cons]
          rw [hstream] at ih2
          exact replay_glue F pad (replayStream s) _ hFle ih2
      | nil =>
        obtain ⟨hstep, hlen⟩ := replayStep_final F D pad s hcur hdir hr
        rw [replayRun_step_none F D pad fuel _ _ hstep]
        constructor
        · intro fr hfr
          rw [List.mem_singleton.mp hfr, List.length_append,
            List.length_replicate, hlen]
          omega
        · simp only [List.flatten_cons, List.flatten_nil, List.append_nil,
            List.length_singleton, Nat.one_mul]
          rw [List.take_of_length_le (by omega), hlen]
          congr 1
          congr 1
          omega

/-- Witness for C8: frame length 2, dataset length 2, two datasets; the
three emitted frames have 2 columns each and concatenate to the source
stream followed by one frame of zero padding. -/
theorem replay_frames_exact_and_continuous_witness :
    (1 ≤ (2 : Nat)) ∧ ((2 : Nat) ≤ 2)
    ∧ ((ReplayState.mk ([1, 2] : List Int) 0 [[3, 4]]).current.length = 2)
    ∧ ((ReplayState.mk ([1, 2] : List Int) 0 [[3, 4]]).ptr ≤ 2)
    ∧ (∀ d ∈ (ReplayState.mk ([1, 2] : List Int) 0 [[3, 4]]).rest, d.length = 2)
    ∧ ((∀ fr ∈ replayRun 2 2 (0 : Int) 3 (ReplayState.mk [1, 2] 0 [[3, 4]]),
          fr.length = 2)
      ∧ (replayRun 2 2 (0 : Int) 3 (ReplayState.mk [1, 2] 0 [[3, 4]])).flatten
          = (replayStream (ReplayState.mk ([1, 2] : List Int) 0 [[3, 4]])).take
              ((replayRun 2 2 (0 : Int) 3 (ReplayState.mk [1, 2] 0 [[3, 4]])).length * 2)
            ++ List.replicate
                ((replayRun 2 2 (0 : Int) 3 (ReplayState.mk [1, 2] 0 [[3, 4]])).length * 2
                  - (replayStream (ReplayState.mk ([1, 2] : List Int) 0 [[3, 4]])).length)
                (0 : Int)) :=
  ⟨by decide, by decide, by decide, by decide, by decide,
    replay_frames_exact_and_continuous 2 2 (0 : Int) (by decide) (by decide)
      3 (ReplayState.mk [1, 2] 0 [[3, 4]]) (by decide) (by decide) (by decide)⟩

/-- Counterexample for C8 as stated: with frame length 5 but dataset length
2, the first emitted frame has only 4 columns (the code docstring itself
warns that chunks can be shorter than `frame_length`). -/
theorem replay_short_frame_counterexample :
    replayRun 5 2 (0 : Int) 3 (ReplayState.mk [1, 2] 0 [[3, 4]])
        = [[1, 2, 3, 4], [0, 0, 0, 0, 0, 0]]
    ∧ ¬ (∀ fr ∈ replayRun 5 2 (0 : Int) 3
            (ReplayState.mk ([1, 2] : List Int) 0 [[3, 4]]),
          fr.length = 5) :=
  ⟨rfl, by decide⟩

/-- C2 (amended).  Only the synthetic backend captures producer-thread
exceptions for `wait()`, which wraps the stored exception in a `MuException`
and re-raises it at the first call only (the slot is cleared), and its
failure handler leaves the `running` flag true; the file-replay backend
re-raises inside the thread so the exception escapes the thread function and
`wait()` re-raises nothing; the remote-live backend catches and merely logs
every producer error; the database-replay backend catches and merely logs
errors raised during the streamed transfer, but its range-overflow check
raises before that `try` and escapes the thread uncaught and unlogged. -/
theorem producer_thread_error_handling (e : ExnClass) :
    baseThreadDisposition e = Disposition.captured
    ∧ wait (some e) = (some ExnClass.mu, none)
    ∧ wait none = (none, none)
    ∧ h5ThreadDisposition e = Disposition.escaped
    ∧ wsThreadDisposition e = Disposition.loggedOnly
    ∧ dbThreadDisposition DbPhase.stream e = Disposition.loggedOnly
    ∧ dbThreadDisposition DbPhase.preStream e = Disposition.escaped
    ∧ runningFlagAfterBaseThreadFailure = true := by
  cases e <;> exact ⟨rfl, rfl, rfl, rfl, rfl, rfl, rfl, rfl⟩

/-- Counterexample for C2 as stated: a generic exception in the file-replay
producer is not captured (it escapes the thread); producer errors in the
remote-live backend — even a `MuWSException` — and streamed-transfer errors
in the database-replay backend are only logged; the database range-overflow
error escapes uncaught; and the running flag does not become false on a
synthetic-backend failure. -/
theorem producer_thread_error_handling_counterexample :
    h5ThreadDisposition ExnClass.genericExn ≠ Disposition.captured
    ∧ wsThreadDisposition ExnClass.muWS ≠ Disposition.captured
    ∧ dbThreadDisposition DbPhase.stream ExnClass.muDB ≠ Disposition.captured
    ∧ dbThreadDisposition DbPhase.preStream ExnClass.muDB = Disposition.escaped
    ∧ runningFlagAfterBaseThreadFailure ≠ false := by
  decide
